import Mathlib

/-!
Verification of the Danish-language-tool core (`src/main.js`) against its
specification.  The vocabulary dataset (`vocabulary.js`) is a parameter of
every statement: it is modelled as an ordered nested association list
mirroring JavaScript object key-insertion order, and the index, token
resolver, grammar checker and translator are shallow embeddings of
`VocabularyManager.getAllWords`, `VocabularyManager.getAllVerbs`,
`App.checkGrammar` and `App.translateSentenceWords`.

JavaScript conventions carried through the embedding:
* an absent object property (`undefined`) is `Option.none`;
* `a || b` on strings is `jsOr` / `jsOrStr` (`""` and `undefined` are falsy);
* a JS `Map` is an ordered association list: `set` replaces in place keeping
  the original insertion position, otherwise appends (`mapSet`);
* a JS `Set` is modelled by a list used only through membership;
* `toLowerCase` is modelled on ASCII letters (`Char.toLower`), which agrees
  with JS on every string appearing in the checks.
-/

set_option autoImplicit false

namespace DanishTool

/-- One raw vocabulary entry, the value stored under a root word in
`vocabulary[level][category]`.  Nouns keep their gloss under `en` or `et`
(the property name doubles as the gender marker), verbs carry a
`conjugations` object (tense name → surface form, in key order), adjectives
may carry an `et_form`.  `example`/`translated` are the stored example
sentence and its translation. -/
structure Entry where
  en : Option String := none
  et : Option String := none
  «example» : Option String := none
  translated : Option String := none
  conjugations : Option (List (String × String)) := none
  et_form : Option String := none
  deriving DecidableEq, Repr

/-- A record stored in the `allWords` map built by `getAllWords`: either a
root record (the entry spread plus `category`/`level`, `root = none`) or a
derived record for a conjugated verb form / adjective `et`-form
(`root = some rootWord`, carrying `conjugatedForm`/`et_form` and `baseEn`). -/
structure WordData where
  en : Option String := none
  et : Option String := none
  «example» : Option String := none
  translated : Option String := none
  conjugations : Option (List (String × String)) := none
  et_form : Option String := none
  root : Option String := none
  conjugatedForm : Option String := none
  baseEn : Option String := none
  category : String
  level : String
  deriving DecidableEq, Repr

/-- The per-position record `checkGrammar` stores in `knownWordsInfo`:
`{ word, rootWord, category, originalWordData }` (the unknown branch stores
`rootWord: null`, `originalWordData: null`). -/
structure KnownInfo where
  word : String
  rootWord : Option String
  category : String
  originalWordData : Option WordData
  deriving DecidableEq, Repr

/-- The dataset shape `level → category → root word → entry`, as ordered
association lists (JS object key-insertion order). -/
abbrev Vocabulary := List (String × List (String × List (String × Entry)))

/-! ### JavaScript string and value helpers -/

/-- JS `a || b` where `a` is a possibly-absent string: `undefined` and `""`
are falsy. -/
def jsOr (a b : Option String) : Option String :=
  match a with
  | some s => if s = "" then b else some s
  | none => b

/-- JS `a || w` returning a plain string default. -/
def jsOrStr (a : Option String) (w : String) : String :=
  match a with
  | some s => if s = "" then w else s
  | none => w

/-- Rendering of a possibly-`undefined` JS string value returned to a
template (`undefined` prints as `"undefined"`). -/
def jsShowOpt (o : Option String) : String := o.getD "undefined"

/-- `toLowerCase`, ASCII case mapping. -/
def jsToLower (s : String) : String := ⟨s.data.map Char.toLower⟩

/-- `trim`: strip leading and trailing whitespace. -/
def jsTrim (s : String) : String :=
  ⟨((s.data.dropWhile Char.isWhitespace).reverse.dropWhile Char.isWhitespace).reverse⟩

/-- `w.endsWith(suf)`. -/
def jsEndsWith (w suf : String) : Bool := decide (suf.data <:+ w.data)

/-- `w.slice(0, -n)`: drop the last `n` characters. -/
def jsDropRight (w : String) (n : Nat) : String := ⟨w.data.take (w.data.length - n)⟩

/-- The sentence punctuation class `[.,?!;]`. -/
def isPunct (c : Char) : Bool := c = '.' || c = ',' || c = '?' || c = '!' || c = ';'

/-- `word.replace(/[.,?!;]$/, '')`: strip one trailing punctuation character. -/
def stripEndPunct (w : String) : String :=
  match w.data.getLast? with
  | some c => if isPunct c then ⟨w.data.dropLast⟩ else w
  | none => w

/-- Maximal non-whitespace runs of a character list (accumulator holds the
current run reversed).  Combined with the `filter(word => word.length > 0)`
that follows every `split(/\s+/)` in the source, this yields exactly the JS
token lists. -/
def wordRunsAux : List Char → List Char → List (List Char)
  | [], acc => if acc = [] then [] else [acc.reverse]
  | c :: rest, acc =>
    if c.isWhitespace then
      if acc = [] then wordRunsAux rest [] else acc.reverse :: wordRunsAux rest []
    else wordRunsAux rest (c :: acc)

/-- `sentence.split(/\s+/)` restricted to the non-empty pieces. -/
def wordRuns (l : List Char) : List (List Char) := wordRunsAux l []

/-- `checkGrammar` tokenisation:
`sentence.split(/\s+/).map(w => w.replace(/[.,?!;]$/, '')).filter(w => w.length > 0)`. -/
def gramTokens (sentence : String) : List String :=
  (((wordRuns sentence.data).map (fun r => stripEndPunct ⟨r⟩)).filter (fun w => w ≠ ""))

/-- `translateSentenceWords` tokenisation:
`sentence.toLowerCase().replace(/[.,?!;]/g, '').split(/\s+/).filter(w => w.length > 0)`. -/
def transTokens (sentence : String) : List String :=
  (((wordRuns ((jsToLower sentence).data.filter (fun c => !isPunct c))).map
      (fun r => (⟨r⟩ : String))).filter (fun w => w ≠ ""))

/-! ### The `allWords` JS `Map` as an ordered association list -/

/-- The `Map<string, WordData>` of the source, in insertion order. -/
abbrev WMap := List (String × WordData)

/-- `map.get(key)`. -/
def mapGet : WMap → String → Option WordData
  | [], _ => none
  | (k, v) :: rest, key => if k = key then some v else mapGet rest key

/-- `map.has(key)`. -/
def mapHas (m : WMap) (k : String) : Bool := (mapGet m k).isSome

/-- `map.set(key, v)`: replace in place if the key exists (keeping its
insertion position), otherwise append. -/
def mapSet : WMap → String → WordData → WMap
  | [], k, v => [(k, v)]
  | (k', v') :: rest, k, v =>
    if k' = k then (k', v) :: rest else (k', v') :: mapSet rest k v

/-- `map.values()` in insertion order. -/
def mapValues (m : WMap) : List WordData := m.map (fun p => p.2)

/-! ### `VocabularyManager.getAllWords` / `getAllVerbs` -/

/-- The root record `{...entry, category, level}` inserted for each root. -/
def rootData (e : Entry) (category level : String) : WordData :=
  { en := e.en, et := e.et, «example» := e.«example», translated := e.translated,
    conjugations := e.conjugations, et_form := e.et_form,
    root := none, conjugatedForm := none, baseEn := none,
    category := category, level := level }

/-- The derived record inserted for a conjugated verb form. -/
def conjData (word conjugatedForm : String) (baseEn : Option String) (level : String) :
    WordData :=
  { root := some word, category := "verbs", conjugatedForm := some conjugatedForm,
    baseEn := baseEn, level := level }

/-- The derived record inserted for an adjective `et`-form. -/
def etFormData (word f : String) (baseEn : Option String) (level : String) : WordData :=
  { root := some word, category := "adjectives", et_form := some f,
    baseEn := baseEn, level := level }

/-- The verb-conjugation inner loop of `getAllWords`: insert each conjugated
form that differs from the infinitive and is not already a key
(`conjugatedForm !== word && !allWords.has(conjugatedForm)`). -/
def insertVerbForms (word : String) (wd : WordData) (level : String) (m : WMap) : WMap :=
  match wd.conjugations with
  | none => m
  | some conjs =>
    conjs.foldl
      (fun acc p =>
        if p.2 ≠ word ∧ ¬ (mapHas acc p.2 = true) then mapSet acc p.2 (conjData word p.2 wd.en level)
        else acc)
      m

/-- The body of the innermost `for (const word in ...)` loop of
`getAllWords`: insert the root record, then derived verb forms (guarded
against overwriting), then the adjective `et`-form
(`wordData.et_form && wordData.et_form !== word`, which does NOT check
`allWords.has`). -/
def insertWord (level category : String) (m : WMap) (we : String × Entry) : WMap :=
  let word := we.1
  let wordData := rootData we.2 category level
  let m := mapSet m word wordData
  let m := if category = "verbs" then insertVerbForms word wordData level m else m
  if category = "adjectives" then
    match wordData.et_form with
    | some f => if f ≠ "" ∧ f ≠ word then mapSet m f (etFormData word f wordData.en level) else m
    | none => m
  else m

/-- `VocabularyManager.getAllWords()` (the cache is irrelevant to the
result): iterate levels, categories, words in key order. -/
def getAllWords (vocab : Vocabulary) : WMap :=
  vocab.foldl
    (fun m lp =>
      lp.2.foldl (fun m cp => cp.2.foldl (fun m we => insertWord lp.1 cp.1 m we) m) m)
    []

/-- `VocabularyManager.getAllVerbs()`: the keys of every level's `verbs`
object (a JS `Set`, used only through membership). -/
def getAllVerbs (vocab : Vocabulary) : List String :=
  vocab.foldl
    (fun acc lp =>
      match lp.2.lookup "verbs" with
      | some ws => acc ++ ws.map (fun we => we.1)
      | none => acc)
    []

/-- The dataset flattened to `(level, category, word, entry)` in iteration
order; `getAllWords` is the left fold of `insertWord` over this list. -/
def flattenVocab (vocab : Vocabulary) : List (String × String × String × Entry) :=
  vocab.flatMap (fun lp => lp.2.flatMap (fun cp => cp.2.map (fun we => (lp.1, cp.1, we.1, we.2))))

/-- All root words of the dataset (the keys of every category object). -/
def rootWords (vocab : Vocabulary) : List String :=
  (flattenVocab vocab).map (fun it => it.2.2.1)

/-- `insertWord` uncurried over a flattened item. -/
def insertItem (m : WMap) (it : String × String × String × Entry) : WMap :=
  insertWord it.1 it.2.1 m (it.2.2.1, it.2.2.2)

/-! ### Token resolution (checkGrammar step 1) -/

/-- The first `allWords` hit in a candidate-root list (`for (const tempRoot
of possibleRoots) { ... if (tempWordData) { ... break; } }`). -/
def firstHit (allW : WMap) : List String → Option (String × WordData)
  | [] => none
  | r :: rest =>
    match mapGet allW r with
    | some d => some (r, d)
    | none => firstHit allW rest

/-- The `possibleRoots` list of `checkGrammar`: the word itself, then the
suffix-stripped candidates `er`, `ede`, `te`, `et`, `t`, each pushed only
when the word ends with the suffix and is long enough that the stripped
form is non-empty. -/
def possibleRoots (word : String) : List String :=
  [word]
  ++ (if jsEndsWith word "er" ∧ 2 < word.length then [jsDropRight word 2] else [])
  ++ (if jsEndsWith word "ede" ∧ 3 < word.length then [jsDropRight word 3] else [])
  ++ (if jsEndsWith word "te" ∧ 2 < word.length then [jsDropRight word 2] else [])
  ++ (if jsEndsWith word "et" ∧ 2 < word.length then [jsDropRight word 2] else [])
  ++ (if jsEndsWith word "t" ∧ 1 < word.length then [jsDropRight word 1] else [])

/-- Step 1 of `checkGrammar` for one token: exact lookup in `allWords`
(root = `originalWordData.root || word`), otherwise the first hit among
`possibleRoots` (root = the stripped candidate itself), otherwise unknown
(`rootWord: null`, `category: 'unknown'`, `originalWordData: null`). -/
def resolveToken (allW : WMap) (word : String) : KnownInfo :=
  match mapGet allW word with
  | some d =>
    { word := word, rootWord := some (jsOrStr d.root word), category := d.category,
      originalWordData := some d }
  | none =>
    match firstHit allW (possibleRoots word) with
    | some rd =>
      { word := word, rootWord := some rd.1, category := rd.2.category,
        originalWordData := some rd.2 }
    | none =>
      { word := word, rootWord := none, category := "unknown", originalWordData := none }

/-- The specification's candidate list (§4.2): exactly four ordered
suffix-stripping candidates — a 2-character agent/present suffix (`er`), a
3-character past-weak suffix (`ede`), a 2-character past-weak/definite
suffix (`te`/`et`), and a 1-character adjective-neuter suffix (`t`) — each
tried only when the stripped form is non-empty. -/
def specSuffixCandidates (word : String) : List String :=
  (if jsEndsWith word "er" ∧ jsDropRight word 2 ≠ "" then [jsDropRight word 2] else [])
  ++ (if jsEndsWith word "ede" ∧ jsDropRight word 3 ≠ "" then [jsDropRight word 3] else [])
  ++ (if (jsEndsWith word "te" ∨ jsEndsWith word "et") ∧ jsDropRight word 2 ≠ "" then
        [jsDropRight word 2] else [])
  ++ (if jsEndsWith word "t" ∧ jsDropRight word 1 ≠ "" then [jsDropRight word 1] else [])

/-- Token resolution exactly as the specification words it: exact lookup
first (same result as the source on a hit), then the four suffix-stripping
candidates in order, first candidate present in `allForms` winning,
otherwise unknown with root none. -/
def specResolveToken (allW : WMap) (word : String) : KnownInfo :=
  match mapGet allW word with
  | some d =>
    { word := word, rootWord := some (jsOrStr d.root word), category := d.category,
      originalWordData := some d }
  | none =>
    match firstHit allW (specSuffixCandidates word) with
    | some rd =>
      { word := word, rootWord := some rd.1, category := rd.2.category,
        originalWordData := some rd.2 }
    | none =>
      { word := word, rootWord := none, category := "unknown", originalWordData := none }

/-! ### `App.checkGrammar` -/

/-- One diagnostic pushed to `feedback` (or the early "Write a sentence
first!" exit).  Each constructor corresponds to one `feedback.push` site and
carries exactly the data interpolated into the message. -/
inductive Diag where
  /-- "Write a sentence first!" (early return, empty input). -/
  | writeFirst
  /-- "I don't recognize the word '⟨w⟩'. ..." -/
  | unknownWord (w : String)
  /-- "Hmm, try to place the verb in the second position ..." -/
  | v2Violation
  /-- "I can't find a verb in your sentence. ..." -/
  | noVerbFound
  /-- "The verb '⟨verbWord⟩' is in its infinitive form. ... present tense form: '⟨expected⟩'." -/
  | infinitiveUsed (verbWord : String) (expected : Option String)
  /-- "The verb '⟨verbWord⟩' might be conjugated incorrectly. The present tense form is '⟨expected⟩'." -/
  | wrongConjugation (verbWord : String) (expected : Option String)
  /-- "The noun '⟨noun⟩' should typically use 'et', not 'en'." -/
  | nounShouldUseEt (noun : String)
  /-- "The noun '⟨noun⟩' should typically use 'en', not 'et'." -/
  | nounShouldUseEn (noun : String)
  /-- "The noun '⟨noun⟩' (following adjective '⟨adj⟩') should use 'et', not 'en'." -/
  | nounAfterAdjShouldUseEt (noun : String) (adj : Option String)
  /-- "The noun '⟨noun⟩' (following adjective '⟨adj⟩') should use 'en', not 'et'." -/
  | nounAfterAdjShouldUseEn (noun : String) (adj : Option String)
  /-- "The adjective '⟨adjRoot⟩' (form: '⟨form⟩') should be its 'et-form' ('⟨etForm⟩') when used with 'et'." -/
  | adjShouldBeEtForm (adjRoot form etForm : String)
  /-- "The adjective '⟨adjRoot⟩' (form: '⟨form⟩') should be its base form ('⟨base⟩') when used with '⟨article⟩'." -/
  | adjShouldBeBaseForm (adjRoot form : String) (base : Option String) (article : String)
  deriving DecidableEq, Repr

/-- The resolved per-position records of a grammar-check call
(`knownWordsInfo`, as a list indexed by token position). -/
def gramInfos (vocab : Vocabulary) (input : String) : List KnownInfo :=
  (gramTokens (jsToLower (jsTrim input))).map (resolveToken (getAllWords vocab))

/-- Step 1 feedback: one "I don't recognize the word" diagnostic per token
whose resolution found nothing (`found` is false exactly when
`originalWordData` is `null`). -/
def unknownDiags (infos : List KnownInfo) : List Diag :=
  infos.filterMap (fun info =>
    if info.originalWordData.isSome then none else some (.unknownWord info.word))

/-- The verb test of the V2 scan: category `'verbs'` and root contained in
the `allVerbsSet` of infinitives (`Set.has(null)` is false). -/
def isSentenceVerb (vocab : Vocabulary) (info : KnownInfo) : Bool :=
  info.category = "verbs" &&
    (match info.rootWord with
     | some r => (getAllVerbs vocab).contains r
     | none => false)

/-- Step 2 scan: the first position (map iteration = insertion order =
token order) holding a sentence verb, with its record. -/
def verbScan (vocab : Vocabulary) (infos : List KnownInfo) : Option (Nat × KnownInfo) :=
  infos.enum.find? (fun pi => isSentenceVerb vocab pi.2)

/-- Step 2 feedback: V2-violation when the sentence has more than one token
and the found verb is not at index 1, otherwise "no verb found" when no
verb was found (`if (...) {...} else if (!verbFound) {...}`). -/
def v2Diags (vocab : Vocabulary) (toks : List String) (infos : List KnownInfo) : List Diag :=
  match verbScan vocab infos with
  | some pi => if toks.length > 1 ∧ pi.1 ≠ 1 then [.v2Violation] else []
  | none => [.noVerbFound]

/-- Step 2.5 feedback (conjugation check).  The source computes
`getWordData(verbInfo.root || verbWord)`; the stored info record has no
`root` field (its field is named `rootWord`), so `verbInfo.root` is always
`undefined` and the lookup always uses the surface form `words[verbPosition]`.
Likewise `verbWord === verbRootData.root` compares against the `root` field
of the fetched record (`undefined` on a root record). -/
def conjDiags (vocab : Vocabulary) (toks : List String) (infos : List KnownInfo) : List Diag :=
  match verbScan vocab infos with
  | none => []
  | some pi =>
    let verbWord := toks.getD pi.1 ""
    match mapGet (getAllWords vocab) verbWord with
    | none => []
    | some vrd =>
      if vrd.category = "verbs" ∧ vrd.conjugations.isSome then
        let expectedPresentForm := (vrd.conjugations.getD []).lookup "present"
        if expectedPresentForm ≠ some verbWord then
          if vrd.root = some verbWord then [.infinitiveUsed verbWord expectedPresentForm]
          else [.wrongConjugation verbWord expectedPresentForm]
        else []
      else []

/-- Step 3 body for one position `i`: the article/agreement check.  A
`null` `rootWord` makes `getWordData` return `undefined`, so those paths
push nothing. -/
def agreeAt (allW : WMap) (infos : List KnownInfo) (i : Nat) : List Diag :=
  match infos.get? i with
  | none => []
  | some wordInfo =>
    if wordInfo.category = "unknown" then []
    else if wordInfo.word = "en" ∨ wordInfo.word = "et" then
      match infos.get? (i + 1) with
      | none => []
      | some next =>
        if next.category = "nouns" ∧ next.originalWordData.isSome then
          match next.rootWord with
          | none => []
          | some nroot =>
            match mapGet allW nroot with
            | none => []
            | some nounData =>
              if wordInfo.word = "en" ∧ nounData.et.isSome then [.nounShouldUseEt nroot]
              else if wordInfo.word = "et" ∧ nounData.en.isSome then [.nounShouldUseEn nroot]
              else []
        else if next.category = "adjectives" ∧ next.originalWordData.isSome then
          match infos.get? (i + 2) with
          | none => []
          | some following =>
            if following.category = "nouns" ∧ following.originalWordData.isSome then
              match following.rootWord with
              | none => []
              | some fnroot =>
                match mapGet allW fnroot with
                | none => []
                | some nounData =>
                  let part1 :=
                    if wordInfo.word = "en" ∧ nounData.et.isSome then
                      [Diag.nounAfterAdjShouldUseEt fnroot next.rootWord]
                    else if wordInfo.word = "et" ∧ nounData.en.isSome then
                      [Diag.nounAfterAdjShouldUseEn fnroot next.rootWord]
                    else []
                  let part2 :=
                    match next.rootWord with
                    | none => []
                    | some aroot =>
                      match mapGet allW aroot with
                      | none => []
                      | some adjRD =>
                        if adjRD.category = "adjectives" then
                          -- `if (adjectiveRootData.et_form)`: absent or "" is falsy
                          let noEtFormChecks :=
                            if wordInfo.word = "et" ∧ adjRD.root ≠ some next.word then
                              [Diag.adjShouldBeBaseForm aroot next.word adjRD.root "et"]
                            else if wordInfo.word = "en" ∧ adjRD.root ≠ some next.word then
                              [Diag.adjShouldBeBaseForm aroot next.word adjRD.root "en"]
                            else []
                          match adjRD.et_form with
                          | some f =>
                            if f ≠ "" then
                              if wordInfo.word = "et" ∧ next.word ≠ f then
                                [Diag.adjShouldBeEtForm aroot next.word f]
                              else if wordInfo.word = "en" ∧ adjRD.root ≠ some next.word then
                                [Diag.adjShouldBeBaseForm aroot next.word adjRD.root "en"]
                              else []
                            else noEtFormChecks
                          | none => noEtFormChecks
                        else []
                  part1 ++ part2
            else []
        else []
    else []

/-- Step 3 feedback: the agreement loop over all token positions. -/
def agreementDiags (allW : WMap) (infos : List KnownInfo) : List Diag :=
  (List.range infos.length).flatMap (agreeAt allW infos)

/-- `App.checkGrammar` as the list of diagnostics it produces for the
(untrimmed) text-area content: the early `"Write a sentence first!"` exits,
otherwise the `feedback` pushes of steps 1, 2, 2.5 and 3 in order (an empty
list is rendered as the success message). -/
def checkGrammar (vocab : Vocabulary) (input : String) : List Diag :=
  let sentence := jsToLower (jsTrim input)
  if sentence = "" then [.writeFirst]
  else
    let toks := gramTokens sentence
    if toks = [] then [.writeFirst]
    else
      let infos := gramInfos vocab input
      unknownDiags infos ++ v2Diags vocab toks infos ++ conjDiags vocab toks infos
        ++ agreementDiags (getAllWords vocab) infos

/-- The diagnostics produced by the article/agreement check (step 3). -/
def isAgreementDiag : Diag → Bool
  | .nounShouldUseEt _ => true
  | .nounShouldUseEn _ => true
  | .nounAfterAdjShouldUseEt _ _ => true
  | .nounAfterAdjShouldUseEn _ _ => true
  | .adjShouldBeEtForm _ _ _ => true
  | .adjShouldBeBaseForm _ _ _ _ => true
  | _ => false

/-- The gender-mismatch diagnostics naming a given noun root. -/
def isGenderMismatchFor (noun : String) : Diag → Bool
  | .nounShouldUseEt n => n = noun
  | .nounShouldUseEn n => n = noun
  | .nounAfterAdjShouldUseEt n _ => n = noun
  | .nounAfterAdjShouldUseEn n _ => n = noun
  | _ => false

/-- The diagnostics produced by the conjugation check (step 2.5). -/
def isConjDiag : Diag → Bool
  | .infinitiveUsed _ _ => true
  | .wrongConjugation _ _ => true
  | _ => false

/-! ### `App.translateSentenceWords` -/

/-- The exact-example test of the shortcut loop:
`wordData.example && wordData.example.toLowerCase() === sentence.toLowerCase()`. -/
def exampleMatch (sentence : String) (d : WordData) : Bool :=
  match d.«example» with
  | some ex => ex ≠ "" && jsToLower ex = jsToLower sentence
  | none => false

/-- The secondary linear scan over the raw dataset (levels → categories →
words in key order): the first entry whose conjugation table contains the
token, or whose adjective `et_form` equals it; yields the pushed value
`data.en` (possibly `undefined`). -/
def scanTranslate (vocab : Vocabulary) (word : String) : Option (Option String) :=
  ((flattenVocab vocab).find? (fun it =>
      (it.2.1 = "verbs" &&
        (match it.2.2.2.conjugations with
         | some cs => cs.any (fun p => p.2 = word)
         | none => false))
      || (it.2.1 = "adjectives" && it.2.2.2.et_form = some word))).map
    (fun it => it.2.2.2.en)

/-- The value pushed to `translatedWords` for one token (a JS value that may
be `undefined`; `Array.join` renders `undefined` as the empty string). -/
def translateWord (vocab : Vocabulary) (allW : WMap) (word : String) : Option String :=
  match mapGet allW word with
  | some wordData =>
    if wordData.category = "verbs" then jsOr wordData.baseEn wordData.en
    else if wordData.category = "nouns" then jsOr wordData.en wordData.et
    else if wordData.category = "adjectives" then jsOr wordData.baseEn wordData.en
    else jsOr wordData.en (jsOr wordData.et (some word))
  | none =>
    match scanTranslate vocab word with
    | some en => en
    | none => some word

/-! #### The heuristic phrase-repair regexes

The three regex-replace passes of `translateSentenceWords` are embedded as
character-list scanners with the exact JS `RegExp.replace` semantics: scan
left to right, at each position try the pattern (alternations in source
order, greedy optional parts with backtracking), replace the leftmost match
and continue scanning after it.  The fuel argument only bounds the scan;
the input length suffices because every match consumes at least one
character. -/

/-- The regex word-character class `\w`. -/
def isWordChar (c : Char) : Bool := c.isAlphanum || c = '_'

/-- `\b` between a word character and the rest of the input. -/
def boundaryAfter : List Char → Bool
  | [] => true
  | c :: _ => !isWordChar c

/-- Substring containment (`String.prototype.includes`). -/
def containsSub (pat : List Char) : List Char → Bool
  | [] => pat.isPrefixOf ([] : List Char)
  | c :: rest => pat.isPrefixOf (c :: rest) || containsSub pat rest

/-- Generic global-replace scanner: `tryMatch` receives the remaining input
and whether the previous character was a word character, and returns the
replacement and the matched length.  Every pattern below ends in a word
character, so scanning resumes in the `prevW = true` state after a match. -/
def scanGlobal (tryMatch : List Char → Bool → Option (List Char × Nat)) :
    Nat → List Char → Bool → List Char
  | 0, s, _ => s
  | fuel + 1, s, prevW =>
    match s with
    | [] => []
    | c :: rest =>
      match tryMatch s prevW with
      | some rn => rn.1 ++ scanGlobal tryMatch fuel (s.drop rn.2) true
      | none => c :: scanGlobal tryMatch fuel rest (isWordChar c)

/-- The verb-gloss alternation shared by the first two repair regexes
(source lines 452 and 468, identical lists; `think\/find` is the literal
alternative `think/find`). -/
def commonVerbGlosses : List String :=
  ["eat", "read", "see", "have", "be", "call", "come", "live", "can", "will", "must",
   "may", "know", "take", "give", "find", "speak", "understand", "love", "drive",
   "work", "visit", "make", "buy", "think/find", "help", "sell", "ask", "answer",
   "study", "develop", "discuss", "explain", "suggest", "decide", "analyze", "argue",
   "contribute", "consider", "criticize", "conclude", "abstract", "articulate",
   "legitimize", "synthesize", "decipher", "internalize", "proliferate", "illuminate",
   "evaluate", "imply", "reflect", "specify", "emphasize"]

/-- The `commonSubjects` list of the first repair callback. -/
def commonSubjects : List String :=
  ["jeg", "du", "han", "hun", "vi", "de", "pigen", "drengen", "huset", "bilen"]

/-- Match `(alternative)\b` at the start of the input, alternatives tried in
source order. -/
def matchAltBound : List String → List Char → Option (String × Nat)
  | [], _ => none
  | v :: rest, s =>
    if v.data.isPrefixOf s ∧ boundaryAfter (s.drop v.data.length) then some (v, v.data.length)
    else matchAltBound rest s

/-- Match `(alternative)s?\b` at the start of the input: alternatives in
source order, the optional `s` greedy (when the next character is `s` the
empty alternative of `s?` cannot satisfy the following `\b`). -/
def matchAltSBound : List String → List Char → Option (String × Nat)
  | [], _ => none
  | v :: rest, s =>
    if v.data.isPrefixOf s then
      match s.drop v.data.length with
      | 's' :: s2 =>
        if boundaryAfter s2 then some (v, v.data.length + 1) else matchAltSBound rest s
      | s1 =>
        if boundaryAfter s1 then some (v, v.data.length) else matchAltSBound rest s
    else matchAltSBound rest s

/-- One attempt of the first repair regex
`/(\b\w+\b) to (eat|…|emphasize)\b/g` with its callback: rewrite
`"<subject> to <verb>"` to `"<subject> <verb>s"` when the captured word is a
known subject (and does not itself contain `"to"`), otherwise keep the
matched text. -/
def tryToVerb (s : List Char) (prevW : Bool) : Option (List Char × Nat) :=
  if prevW then none
  else
    match s with
    | [] => none
    | c :: _ =>
      if ¬ isWordChar c = true then none
      else
        let w1 := s.takeWhile isWordChar
        let s1 := s.drop w1.length
        if " to ".data.isPrefixOf s1 then
          match matchAltBound commonVerbGlosses (s1.drop 4) with
          | some vn =>
            let matchedLen := w1.length + 4 + vn.2
            let p1 : String := ⟨w1⟩
            let rep :=
              if ¬ containsSub "to".data (jsToLower p1).data = true
                  ∧ commonSubjects.contains (jsToLower p1) = true then
                w1 ++ [' '] ++ vn.1.data ++ ['s']
              else s.take matchedLen
            some (rep, matchedLen)
          | none => none
        else none

/-- One attempt of the second repair regex `/(\b(eat|…|emphasize))s?\b/g`
with its callback: the copula gloss becomes `"is"`, modal glosses stay
unchanged, any other verb gloss becomes `"is <gloss>ing"`. -/
def tryIng (s : List Char) (prevW : Bool) : Option (List Char × Nat) :=
  if prevW then none
  else
    match matchAltSBound commonVerbGlosses s with
    | some vn =>
      let rep :=
        if vn.1 = "be" then "is".data
        else if vn.1 = "can" ∨ vn.1 = "will" ∨ vn.1 = "must" ∨ vn.1 = "may" then s.take vn.2
        else "is ".data ++ vn.1.data ++ "ing".data
      some (rep, vn.2)
    | none => none

/-- One attempt of `/ the (an?)\b/g → ' the '` (greedy `an?`, with the
backtracking step to the bare `a`). -/
def tryTheA (s : List Char) (_ : Bool) : Option (List Char × Nat) :=
  if " the ".data.isPrefixOf s then
    match s.drop 5 with
    | 'a' :: s6 =>
      match s6 with
      | 'n' :: s7 =>
        if boundaryAfter s7 then some (" the ".data, 7)
        else if boundaryAfter s6 then some (" the ".data, 6)
        else none
      | _ => if boundaryAfter s6 then some (" the ".data, 6) else none
    | _ => none
  else none

/-- The first-article step of `/ an? (an?)\b/g`: given the input after the
leading space and one alternative for the first article, match
`"<a1> (an?)\b"` and produce `' $1'`. -/
def tryAnArtWith (a1 : String) (s1 : List Char) : Option (List Char × Nat) :=
  if a1.data.isPrefixOf s1 then
    match s1.drop a1.data.length with
    | ' ' :: s3 =>
      if "an".data.isPrefixOf s3 ∧ boundaryAfter (s3.drop 2) then
        some (' ' :: "an".data, 1 + a1.data.length + 1 + 2)
      else if "a".data.isPrefixOf s3 ∧ boundaryAfter (s3.drop 1) then
        some (' ' :: "a".data, 1 + a1.data.length + 1 + 1)
      else none
    | _ => none
  else none

/-- One attempt of `/ an? (an?)\b/g → ' $1'` (both articles greedy). -/
def tryAnArt (s : List Char) (_ : Bool) : Option (List Char × Nat) :=
  match s with
  | ' ' :: s1 =>
    match tryAnArtWith "an" s1 with
    | some r => some r
    | none => tryAnArtWith "a" s1
  | _ => none

/-- Match `\s+<mid1>\s+<mid2>\s+` at the start of the input (each `\s+`
taking its maximal run, which is forced because the literals start with a
non-space character); returns the matched length. -/
def matchWsSeq (mid1 mid2 : List Char) (s : List Char) : Option Nat :=
  let ws1 := s.takeWhile Char.isWhitespace
  if ws1.length = 0 then none
  else
    let s1 := s.drop ws1.length
    if mid1.isPrefixOf s1 then
      let s2 := s1.drop mid1.length
      let ws2 := s2.takeWhile Char.isWhitespace
      if ws2.length = 0 then none
      else
        let s3 := s2.drop ws2.length
        if mid2.isPrefixOf s3 then
          let s4 := s3.drop mid2.length
          let ws3 := s4.takeWhile Char.isWhitespace
          if ws3.length = 0 then none
          else some (ws1.length + mid1.length + ws2.length + mid2.length + ws3.length)
        else none
    else none

/-- Non-global replace of the first `\s+<mid1>\s+<mid2>\s+` occurrence. -/
def replaceOnceWs (mid1 mid2 rep : List Char) : Nat → List Char → List Char
  | 0, s => s
  | _ + 1, [] => []
  | fuel + 1, c :: rest =>
    match matchWsSeq mid1 mid2 (c :: rest) with
    | some n => rep ++ (c :: rest).drop n
    | none => c :: replaceOnceWs mid1 mid2 rep fuel rest

/-- The final-pass phrase repair of `translateSentenceWords`: the two
verb-gloss regexes, then the three article clean-ups, in source order. -/
def phraseRepair (s : String) : String :=
  let d1 := scanGlobal tryToVerb (s.data.length + 1) s.data false
  let d2 := scanGlobal tryIng (d1.length + 1) d1 false
  let d3 := scanGlobal tryTheA (d2.length + 1) d2 false
  let d4 := scanGlobal tryAnArt (d3.length + 1) d3 false
  let d5 := replaceOnceWs "a".data "an".data " a ".data (d4.length + 1) d4
  let d6 := replaceOnceWs "an".data "a".data " an ".data (d5.length + 1) d5
  ⟨d6⟩

/-- `App.translateSentenceWords`: the exact-example shortcut (returning the
entry's raw `translated` field), otherwise per-token translation joined with
spaces (`Array.join` renders an `undefined` element as `""`) followed by the
phrase repair. -/
def translateSentenceWords (vocab : Vocabulary) (sentence : String) : String :=
  let allW := getAllWords vocab
  match (mapValues allW).find? (exampleMatch sentence) with
  | some wordData => jsShowOpt wordData.translated
  | none =>
    let words := transTokens sentence
    let translatedWords := words.map (translateWord vocab allW)
    let finalTranslation := String.intercalate " " (translatedWords.map (fun o => o.getD ""))
    phraseRepair finalTranslation

/-! ### `UIManager.shuffleArray` -/

/-- Exchange two positions of a list (the destructuring swap of the source). -/
def listSwap {α : Type} (l : List α) (i j : Nat) : List α :=
  match l.get? i, l.get? j with
  | some x, some y => (l.set i y).set j x
  | _, _ => l

/-- The Fisher–Yates shuffle of `UIManager.shuffleArray`, with the
`Math.floor(Math.random() * (i + 1))` draw made an explicit parameter
(clamped to its JS range `0 … i`).  This is the only consumer of
`Math.random` besides `getSuggestion`; `checkGrammar` and
`translateSentenceWords` take no such parameter. -/
def shuffleArray {α : Type} (draws : Nat → Nat) (l : List α) : List α :=
  ((List.range l.length).reverse.filter (fun i => 0 < i)).foldl
    (fun acc i => listSwap acc i (min (draws i) i)) l

/-! ### Index-invariant predicates -/

/-- `d` is the root record of an occurrence of the root word `r` in the
dataset. -/
def RootRecordFor (vocab : Vocabulary) (r : String) (d : WordData) : Prop :=
  ∃ lvl cat e, (lvl, cat, r, e) ∈ flattenVocab vocab ∧ d = rootData e cat lvl

/-- The map stores a root's own entry under the key `r`. -/
def RootEntryAt (vocab : Vocabulary) (m : WMap) (r : String) : Prop :=
  ∃ d, mapGet m r = some d ∧ d.root = none ∧ RootRecordFor vocab r d

/-- No adjective of the dataset has an `et_form` (differing from its own
word and non-empty) that coincides with a root word of the dataset.  Under
this condition the unguarded adjective `et_form` insertion of `getAllWords`
cannot clobber a root entry. -/
def adjSafe (vocab : Vocabulary) : Bool :=
  (flattenVocab vocab).all (fun it =>
    if it.2.1 = "adjectives" then
      match it.2.2.2.et_form with
      | some f => f = "" || f = it.2.2.1 || !((rootWords vocab).contains f)
      | none => true
    else true)

/-! ### Concrete datasets used to instantiate the theorems -/

/-- A one-verb dataset: `spise` (to eat) with present `spiser` and past
`spiste`, plus a stored example sentence. -/
def spiseEntry : Entry :=
  { en := some "eat", conjugations := some [("present", "spiser"), ("past", "spiste")],
    «example» := some "Jeg spiser et æble", translated := some "I am eating an apple" }

/-- `{ a1: { verbs: { spise: … } } }`. -/
def spiseVocab : Vocabulary := [("a1", [("verbs", [("spise", spiseEntry)])])]

/-- An `et`-gender noun `hus` (house) carrying a stored example sentence. -/
def husEntry : Entry :=
  { et := some "house", «example» := some "Huset er stort",
    translated := some "The house is big" }

/-- A dataset in which the word `en` itself is a vocabulary word and `hus`
is an `et`-gender noun carrying a stored example. -/
def artVocab : Vocabulary :=
  [("a1", [("other", [("en", { en := some "a" })]), ("nouns", [("hus", husEntry)])])]

/-- An `et`-gender noun `hus` with no article words in the dataset. -/
def noArticleVocab : Vocabulary := [("a1", [("nouns", [("hus", { et := some "house" })])])]

/-- A dataset where the noun root `stort` collides with the `et_form` of the
adjective `stor` processed after it. -/
def adjClashVocab : Vocabulary :=
  [("a1",
    [("nouns", [("stort", { en := some "big-thing" })]),
     ("adjectives", [("stor", { en := some "big", et_form := some "stort" })])])]

/-! ## General lemmas about the embedding -/

theorem resolveToken_word (allW : WMap) (w : String) : (resolveToken allW w).word = w := by
  unfold resolveToken
  split
  · rfl
  · split <;> rfl

theorem resolveToken_found (allW : WMap) (w : String)
    (h : (resolveToken allW w).category ≠ "unknown") :
    (resolveToken allW w).originalWordData.isSome = true := by
  unfold resolveToken at *
  split at h
  · rfl
  · split at h
    · rfl
    · exact absurd rfl h

theorem jsToLower_empty : jsToLower "" = "" := rfl

theorem gramTokens_empty : gramTokens "" = [] := rfl

/-- The main path of `checkGrammar`: with a non-empty token list the result
is the concatenation of the four check phases. -/
theorem checkGrammar_eq (vocab : Vocabulary) (input : String)
    (h : gramTokens (jsToLower (jsTrim input)) ≠ []) :
    checkGrammar vocab input =
      unknownDiags (gramInfos vocab input)
        ++ v2Diags vocab (gramTokens (jsToLower (jsTrim input))) (gramInfos vocab input)
        ++ conjDiags vocab (gramTokens (jsToLower (jsTrim input))) (gramInfos vocab input)
        ++ agreementDiags (getAllWords vocab) (gramInfos vocab input) := by
  have hs : ¬ jsToLower (jsTrim input) = "" := by
    intro hs
    exact h (by rw [hs]; rfl)
  simp only [checkGrammar, if_neg hs, if_neg h]

/-- Both early exits of `checkGrammar` (empty trimmed sentence, or all
tokens empty after punctuation stripping) yield exactly `[writeFirst]`. -/
theorem checkGrammar_writeFirst (vocab : Vocabulary) (input : String)
    (h : gramTokens (jsToLower (jsTrim input)) = []) :
    checkGrammar vocab input = [Diag.writeFirst] := by
  by_cases hs : jsToLower (jsTrim input) = ""
  · simp only [checkGrammar, if_pos hs]
  · simp only [checkGrammar, if_neg hs, h, if_pos]

theorem mem_unknownDiags {infos : List KnownInfo} {d : Diag} (h : d ∈ unknownDiags infos) :
    ∃ w, d = Diag.unknownWord w := by
  simp only [unknownDiags, List.mem_filterMap] at h
  obtain ⟨info, _, hf⟩ := h
  split at hf
  · exact absurd hf (by simp)
  · exact ⟨info.word, (Option.some_injective _ hf).symm⟩

theorem v2Diags_cases (vocab : Vocabulary) (toks : List String) (infos : List KnownInfo) :
    v2Diags vocab toks infos = [] ∨ v2Diags vocab toks infos = [Diag.v2Violation]
      ∨ v2Diags vocab toks infos = [Diag.noVerbFound] := by
  unfold v2Diags
  split
  · split
    · right; left; rfl
    · left; rfl
  · right; right; rfl

theorem conjDiags_all (vocab : Vocabulary) (toks : List String) (infos : List KnownInfo) :
    (conjDiags vocab toks infos).all isConjDiag = true := by
  simp only [conjDiags]
  repeat' split
  all_goals rfl

theorem mem_conjDiags {vocab : Vocabulary} {toks : List String} {infos : List KnownInfo}
    {d : Diag} (h : d ∈ conjDiags vocab toks infos) : isConjDiag d = true :=
  List.all_eq_true.mp (conjDiags_all vocab toks infos) d h

set_option maxHeartbeats 1000000 in
theorem agreeAt_all (allW : WMap) (infos : List KnownInfo) (i : Nat) :
    (agreeAt allW infos i).all isAgreementDiag = true := by
  simp only [agreeAt]
  repeat' split
  all_goals rfl

theorem mem_agreementDiags {allW : WMap} {infos : List KnownInfo} {d : Diag}
    (h : d ∈ agreementDiags allW infos) : isAgreementDiag d = true := by
  simp only [agreementDiags, List.mem_flatMap] at h
  obtain ⟨i, _, hi⟩ := h
  exact List.all_eq_true.mp (agreeAt_all allW infos i) d hi

theorem jsDropRight_ne_empty (w : String) (n : Nat) : jsDropRight w n ≠ "" ↔ n < w.length := by
  have hmk : ((⟨w.data.take (w.data.length - n)⟩ : String) = "")
      ↔ w.data.take (w.data.length - n) = [] := by
    constructor
    · intro h
      exact congrArg String.data h
    · intro h
      rw [h]
  have hlen : w.length = w.data.length := rfl
  rw [jsDropRight, ne_eq, hmk, List.take_eq_nil_iff, not_or]
  constructor
  · rintro ⟨h1, h2⟩
    have h3 : w.data.length ≠ 0 := fun h => h2 (List.length_eq_zero.mp h)
    omega
  · intro h
    refine ⟨by omega, fun he => ?_⟩
    rw [he] at hlen
    simp at hlen
    omega

theorem not_jsEndsWith_te_et (w : String) :
    ¬(jsEndsWith w "te" = true ∧ jsEndsWith w "et" = true) := by
  rintro ⟨h1, h2⟩
  rw [jsEndsWith, decide_eq_true_iff] at h1 h2
  obtain ⟨p, hp⟩ := h1
  obtain ⟨q, hq⟩ := h2
  rw [← hq] at hp
  have hlen : p.length = q.length := by
    have := congrArg List.length hp
    simp at this
    omega
  have := (List.append_inj hp hlen).2
  exact absurd this (by decide)

/-- The source's candidate-root list is the token itself followed by the
specification's four suffix-stripping candidates: the `te` and `et` strips
are mutually exclusive and both drop two characters, so together they form
the single 2-character past-weak/definite slot. -/
theorem possibleRoots_eq (word : String) :
    possibleRoots word = word :: specSuffixCandidates word := by
  have hne := not_jsEndsWith_te_et word
  unfold possibleRoots specSuffixCandidates
  simp only [jsDropRight_ne_empty]
  by_cases hte : jsEndsWith word "te" = true <;>
    by_cases het : jsEndsWith word "et" = true <;>
    by_cases hlen : 2 < word.length <;>
    simp_all [List.append_assoc]

end DanishTool

namespace DanishTool

/-! ## Lemmas for the `getAllWords` build invariant -/

theorem mapGet_set (m : WMap) (k : String) (v : WordData) (k' : String) :
    mapGet (mapSet m k v) k' = if k = k' then some v else mapGet m k' := by
  induction m with
  | nil => simp [mapSet, mapGet]
  | cons p rest ih =>
    obtain ⟨k0, v0⟩ := p
    by_cases h0 : k0 = k <;> by_cases h1 : k0 = k' <;> by_cases h2 : k = k' <;>
      simp_all [mapSet, mapGet]

theorem foldl_verb_preserve (word : String) (en : Option String) (lvl k : String)
    (d : WordData) :
    ∀ (conjs : List (String × String)) (m : WMap), mapGet m k = some d →
      mapGet (conjs.foldl
        (fun acc p =>
          if p.2 ≠ word ∧ ¬ (mapHas acc p.2 = true) then
            mapSet acc p.2 (conjData word p.2 en lvl)
          else acc) m) k = some d := by
  intro conjs
  induction conjs with
  | nil => exact fun m h => h
  | cons c cs ih =>
    intro m h
    simp only [List.foldl_cons]
    apply ih
    by_cases hc : c.2 ≠ word ∧ ¬ (mapHas m c.2 = true)
    · rw [if_pos hc, mapGet_set, if_neg ?hne]
      · exact h
      · intro he
        subst he
        exact hc.2 (by rw [mapHas, h]; rfl)
    · rw [if_neg hc]
      exact h

theorem mapGet_insertVerbForms (word : String) (wd : WordData) (lvl : String) {m : WMap}
    {k : String} {d : WordData} (h : mapGet m k = some d) :
    mapGet (insertVerbForms word wd lvl m) k = some d := by
  unfold insertVerbForms
  cases hc : wd.conjugations with
  | none => exact h
  | some conjs => exact foldl_verb_preserve word wd.en lvl k d conjs m h

theorem catLoop_eq (lvl : String) :
    ∀ (cats : List (String × List (String × Entry))) (m : WMap),
      cats.foldl (fun m cp => cp.2.foldl (fun m we => insertWord lvl cp.1 m we) m) m
        = (cats.flatMap (fun cp => cp.2.map (fun we => (lvl, cp.1, we.1, we.2)))).foldl
            insertItem m := by
  intro cats
  induction cats with
  | nil => exact fun m => rfl
  | cons cp rest ih =>
    intro m
    simp only [List.foldl_cons, List.flatMap_cons, List.foldl_append]
    rw [ih]
    congr 1
    rw [List.foldl_map]
    rfl

theorem buildLoop_eq :
    ∀ (vocab : Vocabulary) (m : WMap),
      vocab.foldl
        (fun m lp =>
          lp.2.foldl (fun m cp => cp.2.foldl (fun m we => insertWord lp.1 cp.1 m we) m) m) m
        = (flattenVocab vocab).foldl insertItem m := by
  intro vocab
  induction vocab with
  | nil => exact fun m => rfl
  | cons lp rest ih =>
    intro m
    simp only [List.foldl_cons, flattenVocab, List.flatMap_cons, List.foldl_append]
    rw [show (rest.flatMap fun lp =>
        lp.2.flatMap fun cp => cp.2.map fun we => (lp.1, cp.1, we.1, we.2))
      = flattenVocab rest from rfl]
    rw [ih]
    congr 1
    exact catLoop_eq lp.1 lp.2 m

theorem getAllWords_eq_foldl (vocab : Vocabulary) :
    getAllWords vocab = (flattenVocab vocab).foldl insertItem [] :=
  buildLoop_eq vocab []

theorem insertWord_self (vocab : Vocabulary) (lvl cat w : String) (e : Entry) (m : WMap)
    (hocc : (lvl, cat, w, e) ∈ flattenVocab vocab) :
    RootEntryAt vocab (insertWord lvl cat m (w, e)) w := by
  refine ⟨rootData e cat lvl, ?_, rfl, lvl, cat, e, hocc, rfl⟩
  simp only [insertWord]
  have h1 : mapGet (mapSet m w (rootData e cat lvl)) w = some (rootData e cat lvl) := by
    rw [mapGet_set, if_pos rfl]
  have h2 :
      mapGet
        (if cat = "verbs" then
          insertVerbForms w (rootData e cat lvl) lvl (mapSet m w (rootData e cat lvl))
        else mapSet m w (rootData e cat lvl)) w = some (rootData e cat lvl) := by
    split
    · exact mapGet_insertVerbForms _ _ _ h1
    · exact h1
  split
  · split
    · split
      · rename_i f hf hcond
        rw [mapGet_set, if_neg hcond.2]
        exact h2
      · exact h2
    · exact h2
  · exact h2

theorem insertWord_preserve (vocab : Vocabulary) (lvl cat w : String) (e : Entry)
    (m : WMap) (r : String) (hr : r ∈ rootWords vocab) (hw : w ≠ r)
    (hadj : cat = "adjectives" → ∀ f, e.et_form = some f → f ≠ "" → f ≠ w →
      f ∉ rootWords vocab)
    (hgood : RootEntryAt vocab m r) :
    RootEntryAt vocab (insertWord lvl cat m (w, e)) r := by
  obtain ⟨d, hget, hroot, hrec⟩ := hgood
  refine ⟨d, ?_, hroot, hrec⟩
  simp only [insertWord]
  have h1 : mapGet (mapSet m w (rootData e cat lvl)) r = some d := by
    rw [mapGet_set, if_neg hw]
    exact hget
  have h2 :
      mapGet
        (if cat = "verbs" then
          insertVerbForms w (rootData e cat lvl) lvl (mapSet m w (rootData e cat lvl))
        else mapSet m w (rootData e cat lvl)) r = some d := by
    split
    · exact mapGet_insertVerbForms _ _ _ h1
    · exact h1
  split
  · rename_i hadjc
    split
    · split
      · rename_i f hf hcond
        rw [mapGet_set, if_neg ?hfr]
        · exact h2
        · intro he
          subst he
          exact hadj hadjc f hf hcond.1 hcond.2 hr
      · exact h2
    · exact h2
  · exact h2

theorem build_rootEntry (vocab : Vocabulary) :
    ∀ (rest : List (String × String × String × Entry)) (m : WMap),
      (∀ it ∈ rest, it ∈ flattenVocab vocab) →
      (∀ it ∈ rest, it.2.1 = "adjectives" → ∀ f, it.2.2.2.et_form = some f → f ≠ "" →
        f ≠ it.2.2.1 → f ∉ rootWords vocab) →
      ∀ r, r ∈ rootWords vocab →
        (RootEntryAt vocab m r ∨ r ∈ rest.map (fun it => it.2.2.1)) →
        RootEntryAt vocab (rest.foldl insertItem m) r := by
  intro rest
  induction rest with
  | nil =>
    intro m _ _ r _ hd
    rcases hd with hd | hd
    · exact hd
    · exact absurd hd (by simp)
  | cons it rest ih =>
    intro m hsub hadj r hr hd
    simp only [List.foldl_cons]
    apply ih (insertItem m it) (fun x hx => hsub x (List.mem_cons_of_mem it hx))
      (fun x hx => hadj x (List.mem_cons_of_mem it hx)) r hr
    obtain ⟨lvl, cat, w, e⟩ := it
    by_cases hw : w = r
    · left
      subst hw
      exact insertWord_self vocab lvl cat w e m (hsub _ (List.mem_cons_self _ _))
    · rcases hd with hgood | hmem
      · left
        exact insertWord_preserve vocab lvl cat w e m r hr hw
          (hadj _ (List.mem_cons_self _ _)) hgood
      · simp only [List.map_cons, List.mem_cons] at hmem
        rcases hmem with he | hmem
        · exact absurd he.symm hw
        · right
          simpa using hmem

/-! ## Claim C1 — root entries in `allForms` (amended theorem) -/

/-- C1 (amended): verb conjugated-form insertions never overwrite an
existing key, and provided no adjective's `et_form` (non-empty, differing
from its own word) coincides with a root word of the dataset (`adjSafe`),
every root word of the dataset maps to a root's own entry in `allForms` —
a record with no root link, spread from an actual dataset occurrence of
that word — never a derived record pointing at a different root. -/
theorem C1_amended_thm (vocab : Vocabulary) (hsafe : adjSafe vocab = true) :
    ∀ r ∈ rootWords vocab, RootEntryAt vocab (getAllWords vocab) r := by
  intro r hr
  rw [getAllWords_eq_foldl]
  refine build_rootEntry vocab (flattenVocab vocab) [] (fun it h => h) ?_ r hr (Or.inr hr)
  intro it hit hcat f hf hne hnw
  rw [adjSafe] at hsafe
  have hthis := List.all_eq_true.mp hsafe it hit
  rw [if_pos hcat, hf] at hthis
  simp at hthis
  rcases hthis with (h | h) | h
  · exact absurd h hne
  · exact absurd h hnw
  · exact h

theorem C1_amended_witness :
    adjSafe spiseVocab = true ∧ "spise" ∈ rootWords spiseVocab ∧
    RootEntryAt spiseVocab (getAllWords spiseVocab) "spise" :=
  ⟨by decide, by decide, C1_amended_thm spiseVocab (by decide) "spise" (by decide)⟩

/-! ## Claim C3 — token resolution -/

/-- C3: token resolution is the exact lowercased lookup in `allForms`
first; if absent, the fixed ordered list of exactly four suffix-stripping
candidates (2-character agent/present, 3-character past-weak, 2-character
past-weak/definite, 1-character adjective-neuter), each tried only when the
stripped form is non-empty, the first candidate present in `allForms`
winning; if no candidate resolves, the category is `"unknown"` and the root
is none.  Stated as: the source's resolution coincides with the resolution
built literally from the specification's description. -/
theorem C3_token_resolution (allW : WMap) (word : String) :
    resolveToken allW word = specResolveToken allW word := by
  unfold resolveToken specResolveToken
  cases h : mapGet allW word with
  | some d => rfl
  | none =>
    rw [possibleRoots_eq]
    have hstep : firstHit allW (word :: specSuffixCandidates word)
        = firstHit allW (specSuffixCandidates word) := by
      simp only [firstHit]
      rw [h]
    rw [hstep]

/-! ## Claim C4 — the V2 check -/

theorem count_eq_zero_unknown {infos : List KnownInfo} {a : Diag}
    (ha : ∀ w, a ≠ Diag.unknownWord w) : (unknownDiags infos).count a = 0 := by
  rw [List.count_eq_zero]
  intro hmem
  obtain ⟨w, hw⟩ := mem_unknownDiags hmem
  exact ha w hw

theorem count_eq_zero_conj {vocab : Vocabulary} {toks : List String}
    {infos : List KnownInfo} {a : Diag} (ha : isConjDiag a = false) :
    (conjDiags vocab toks infos).count a = 0 := by
  rw [List.count_eq_zero]
  intro hmem
  have := mem_conjDiags hmem
  rw [ha] at this
  exact Bool.noConfusion this

theorem count_eq_zero_agree {allW : WMap} {infos : List KnownInfo} {a : Diag}
    (ha : isAgreementDiag a = false) : (agreementDiags allW infos).count a = 0 := by
  rw [List.count_eq_zero]
  intro hmem
  have := mem_agreementDiags hmem
  rw [ha] at this
  exact Bool.noConfusion this

/-- C4: the V2 check finds the first resolved token whose category is
`"verbs"` and whose root is in the verb-root set (`verbScan`).  If the
sentence has more than one token and that verb is at a position other than
index 1, exactly one V2-violation diagnostic appears in the output and no
"no verb found" diagnostic; if no such verb exists (in a non-empty
sentence), exactly one "no verb found" diagnostic appears and no
V2-violation; and the two diagnostics never co-occur in one call. -/
theorem C4_v2_check (vocab : Vocabulary) (input : String) :
    (∀ p : Nat,
      (verbScan vocab (gramInfos vocab input)).map Prod.fst = some p →
      (gramTokens (jsToLower (jsTrim input))).length > 1 → p ≠ 1 →
      (checkGrammar vocab input).count Diag.v2Violation = 1 ∧
      (checkGrammar vocab input).count Diag.noVerbFound = 0) ∧
    (gramTokens (jsToLower (jsTrim input)) ≠ [] →
      verbScan vocab (gramInfos vocab input) = none →
      (checkGrammar vocab input).count Diag.noVerbFound = 1 ∧
      (checkGrammar vocab input).count Diag.v2Violation = 0) ∧
    ¬(Diag.v2Violation ∈ checkGrammar vocab input ∧
      Diag.noVerbFound ∈ checkGrammar vocab input) := by
  have hu1 : (unknownDiags (gramInfos vocab input)).count Diag.v2Violation = 0 :=
    count_eq_zero_unknown (fun w => by simp)
  have hu2 : (unknownDiags (gramInfos vocab input)).count Diag.noVerbFound = 0 :=
    count_eq_zero_unknown (fun w => by simp)
  have hc1 : (conjDiags vocab (gramTokens (jsToLower (jsTrim input)))
      (gramInfos vocab input)).count Diag.v2Violation = 0 := count_eq_zero_conj rfl
  have hc2 : (conjDiags vocab (gramTokens (jsToLower (jsTrim input)))
      (gramInfos vocab input)).count Diag.noVerbFound = 0 := count_eq_zero_conj rfl
  have ha1 : (agreementDiags (getAllWords vocab)
      (gramInfos vocab input)).count Diag.v2Violation = 0 := count_eq_zero_agree rfl
  have ha2 : (agreementDiags (getAllWords vocab)
      (gramInfos vocab input)).count Diag.noVerbFound = 0 := count_eq_zero_agree rfl
  refine ⟨?_, ?_, ?_⟩
  · intro p hscan hlen hp
    have htoks : gramTokens (jsToLower (jsTrim input)) ≠ [] := by
      intro he
      rw [he] at hlen
      simp at hlen
    obtain ⟨pi, hpi⟩ : ∃ pi, verbScan vocab (gramInfos vocab input) = some pi := by
      cases hv : verbScan vocab (gramInfos vocab input) with
      | some pi => exact ⟨pi, rfl⟩
      | none =>
        rw [hv] at hscan
        simp at hscan
    have hp1 : pi.1 = p := by
      rw [hpi] at hscan
      simpa using hscan
    have hv2 : v2Diags vocab (gramTokens (jsToLower (jsTrim input))) (gramInfos vocab input)
        = [Diag.v2Violation] := by
      simp only [v2Diags, hpi]
      rw [if_pos ⟨hlen, by rw [hp1]; exact hp⟩]
    rw [checkGrammar_eq vocab input htoks]
    simp [List.count_append, hv2, hu1, hu2, hc1, hc2, ha1, ha2]
  · intro htoks hnone
    have hv2 : v2Diags vocab (gramTokens (jsToLower (jsTrim input))) (gramInfos vocab input)
        = [Diag.noVerbFound] := by
      simp only [v2Diags, hnone]
    rw [checkGrammar_eq vocab input htoks]
    simp [List.count_append, hv2, hu1, hu2, hc1, hc2, ha1, ha2]
  · rintro ⟨hv, hn⟩
    by_cases htoks : gramTokens (jsToLower (jsTrim input)) = []
    · rw [checkGrammar_writeFirst vocab input htoks] at hv
      simp at hv
    · rw [checkGrammar_eq vocab input htoks] at hv hn
      simp only [List.mem_append] at hv hn
      have hv' : Diag.v2Violation
          ∈ v2Diags vocab (gramTokens (jsToLower (jsTrim input))) (gramInfos vocab input) := by
        rcases hv with ((hv | hv) | hv) | hv
        · obtain ⟨w, hw⟩ := mem_unknownDiags hv
          exact absurd hw (by simp)
        · exact hv
        · have := mem_conjDiags hv
          simp [isConjDiag] at this
        · have := mem_agreementDiags hv
          simp [isAgreementDiag] at this
      have hn' : Diag.noVerbFound
          ∈ v2Diags vocab (gramTokens (jsToLower (jsTrim input))) (gramInfos vocab input) := by
        rcases hn with ((hn | hn) | hn) | hn
        · obtain ⟨w, hw⟩ := mem_unknownDiags hn
          exact absurd hw (by simp)
        · exact hn
        · have := mem_conjDiags hn
          simp [isConjDiag] at this
        · have := mem_agreementDiags hn
          simp [isAgreementDiag] at this
      rcases v2Diags_cases vocab (gramTokens (jsToLower (jsTrim input)))
          (gramInfos vocab input) with h | h | h <;> rw [h] at hv' hn' <;> simp at hv' hn'

theorem C4_witness :
    (checkGrammar spiseVocab "spise mad").count Diag.v2Violation = 1 ∧
    (checkGrammar spiseVocab "spise mad").count Diag.noVerbFound = 0 :=
  (C4_v2_check spiseVocab "spise mad").1 0 (by decide) (by decide) (by decide)

/-! ## Claim C5 — gender agreement (amended) and claim C9 -/

theorem countP_gender_unknown {infos : List KnownInfo} {r : String} :
    (unknownDiags infos).countP (isGenderMismatchFor r) = 0 := by
  rw [List.countP_eq_zero]
  intro d hd
  obtain ⟨w, hw⟩ := mem_unknownDiags hd
  subst hw
  simp [isGenderMismatchFor]

theorem countP_gender_v2 {vocab : Vocabulary} {toks : List String} {infos : List KnownInfo}
    {r : String} : (v2Diags vocab toks infos).countP (isGenderMismatchFor r) = 0 := by
  rcases v2Diags_cases vocab toks infos with h | h | h <;>
    simp [h, isGenderMismatchFor]

theorem countP_gender_conj {vocab : Vocabulary} {toks : List String}
    {infos : List KnownInfo} {r : String} :
    (conjDiags vocab toks infos).countP (isGenderMismatchFor r) = 0 := by
  rw [List.countP_eq_zero]
  intro d hd
  have := mem_conjDiags hd
  cases d <;> simp_all [isConjDiag, isGenderMismatchFor]

theorem agreeAt_zero_noun (allW : WMap) (i1 i2 : KnownInfo) (r : String) (nd : WordData)
    (h1 : ¬ i1.category = "unknown")
    (h2 : i1.word = "en" ∨ i1.word = "et")
    (h3 : i2.category = "nouns") (h4 : i2.originalWordData.isSome = true)
    (h5 : i2.rootWord = some r) (h6 : mapGet allW r = some nd) :
    agreeAt allW [i1, i2] 0 =
      (if i1.word = "en" ∧ nd.et.isSome = true then [Diag.nounShouldUseEt r]
       else if i1.word = "et" ∧ nd.en.isSome = true then [Diag.nounShouldUseEn r]
       else []) := by
  simp only [agreeAt, List.get?, if_neg h1, if_pos h2, if_pos (And.intro h3 h4), h5, h6]

theorem agreeAt_one (allW : WMap) (i1 i2 : KnownInfo) : agreeAt allW [i1, i2] 1 = [] := by
  simp only [agreeAt, List.get?]
  repeat' split
  all_goals rfl

theorem agreementDiags_pair (allW : WMap) (i1 i2 : KnownInfo) :
    agreementDiags allW [i1, i2] = agreeAt allW [i1, i2] 0 ++ agreeAt allW [i1, i2] 1 := by
  have h2 : List.range 2 = [0, 1] := rfl
  simp [agreementDiags, h2]

/-- C5 (amended): for a two-token sentence "article noun" in which the
article token itself resolves to a known category, the article is one of
`en`/`et`, the noun token resolves to a noun with root `r`, and the noun
root's gender-class attribute is the opposite of the article, the analysis
emits exactly one gender-mismatch diagnostic naming `r`. -/
theorem C5_amended_thm (vocab : Vocabulary) (input a n r : String) (nd : WordData)
    (htoks : gramTokens (jsToLower (jsTrim input)) = [a, n])
    (hart : a = "en" ∨ a = "et")
    (haknown : (resolveToken (getAllWords vocab) a).category ≠ "unknown")
    (hnoun : (resolveToken (getAllWords vocab) n).category = "nouns")
    (hroot : (resolveToken (getAllWords vocab) n).rootWord = some r)
    (hnd : mapGet (getAllWords vocab) r = some nd)
    (hmis : (a = "en" ∧ nd.et.isSome = true) ∨ (a = "et" ∧ nd.en.isSome = true)) :
    (checkGrammar vocab input).countP (isGenderMismatchFor r) = 1 := by
  have htoks' : gramTokens (jsToLower (jsTrim input)) ≠ [] := by
    rw [htoks]
    simp
  have hinfos : gramInfos vocab input
      = [resolveToken (getAllWords vocab) a, resolveToken (getAllWords vocab) n] := by
    rw [gramInfos, htoks]
    rfl
  have hword : (resolveToken (getAllWords vocab) a).word = a :=
    resolveToken_word (getAllWords vocab) a
  have hfound : (resolveToken (getAllWords vocab) n).originalWordData.isSome = true := by
    apply resolveToken_found
    rw [hnoun]
    decide
  have hA0 := agreeAt_zero_noun (getAllWords vocab) (resolveToken (getAllWords vocab) a)
    (resolveToken (getAllWords vocab) n) r nd haknown (by rw [hword]; exact hart) hnoun
    hfound hroot hnd
  have hA1 := agreeAt_one (getAllWords vocab) (resolveToken (getAllWords vocab) a)
    (resolveToken (getAllWords vocab) n)
  have hAg : (agreementDiags (getAllWords vocab)
      (gramInfos vocab input)).countP (isGenderMismatchFor r) = 1 := by
    rw [hinfos, agreementDiags_pair, List.countP_append, hA0, hA1, hword]
    rcases hmis with ⟨ha, hmet⟩ | ⟨ha, hmen⟩
    · subst ha
      rw [if_pos (And.intro rfl hmet)]
      simp [isGenderMismatchFor]
    · subst ha
      rw [if_neg (by simp), if_pos (And.intro rfl hmen)]
      simp [isGenderMismatchFor]
  rw [checkGrammar_eq vocab input htoks']
  simp only [List.countP_append, countP_gender_unknown, countP_gender_v2,
    countP_gender_conj, hAg]

theorem C5_amended_witness :
    (resolveToken (getAllWords artVocab) "en").category ≠ "unknown" ∧
    (resolveToken (getAllWords artVocab) "hus").category = "nouns" ∧
    (checkGrammar artVocab "en hus").countP (isGenderMismatchFor "hus") = 1 :=
  ⟨by decide, by decide,
    C5_amended_thm artVocab "en hus" "en" "hus" "hus" (rootData husEntry "nouns" "a1")
      (by decide) (Or.inl rfl) (by decide) (by decide) (by decide) (by decide)
      (Or.inl ⟨rfl, by decide⟩)⟩

theorem agreeAt_guards {allW : WMap} {infos : List KnownInfo} {i : Nat} {d : Diag}
    (h : d ∈ agreeAt allW infos i) :
    ∃ wordInfo, infos.get? i = some wordInfo ∧ ¬ wordInfo.category = "unknown" ∧
      (wordInfo.word = "en" ∨ wordInfo.word = "et") := by
  unfold agreeAt at h
  split at h
  · exact absurd h (by simp)
  · rename_i wordInfo heq
    split at h
    · exact absurd h (by simp)
    · split at h
      · exact ⟨wordInfo, heq, by assumption, by assumption⟩
      · exact absurd h (by simp)

/-- C9: an article/agreement diagnostic is emitted only if some token is
literally `en` or `et` AND that token itself resolves to a known
(non-`unknown`) category; in particular, when the articles are absent from
the dataset and unresolvable, no gender-mismatch or adjective-form
diagnostic is ever produced. -/
theorem C9_agreement_guard (vocab : Vocabulary) (input : String) (d : Diag)
    (hd : d ∈ checkGrammar vocab input) (hagr : isAgreementDiag d = true) :
    ∃ i, ∃ h : i < (gramTokens (jsToLower (jsTrim input))).length,
      (((gramTokens (jsToLower (jsTrim input))).get ⟨i, h⟩ = "en" ∨
        (gramTokens (jsToLower (jsTrim input))).get ⟨i, h⟩ = "et") ∧
       ¬ (resolveToken (getAllWords vocab)
           ((gramTokens (jsToLower (jsTrim input))).get ⟨i, h⟩)).category = "unknown") := by
  by_cases htoks : gramTokens (jsToLower (jsTrim input)) = []
  · rw [checkGrammar_writeFirst vocab input htoks] at hd
    simp at hd
    subst hd
    simp [isAgreementDiag] at hagr
  · rw [checkGrammar_eq vocab input htoks] at hd
    simp only [List.mem_append] at hd
    rcases hd with ((hd | hd) | hd) | hd
    · obtain ⟨w, hw⟩ := mem_unknownDiags hd
      subst hw
      simp [isAgreementDiag] at hagr
    · rcases v2Diags_cases vocab (gramTokens (jsToLower (jsTrim input)))
        (gramInfos vocab input) with h | h | h <;> rw [h] at hd <;> simp at hd <;>
        (subst hd; simp [isAgreementDiag] at hagr)
    · have := mem_conjDiags hd
      cases d <;> simp_all [isConjDiag, isAgreementDiag]
    · simp only [agreementDiags, List.mem_flatMap] at hd
      obtain ⟨i, _, hia⟩ := hd
      obtain ⟨wordInfo, hget, hcat, hw⟩ := agreeAt_guards hia
      have hlen : i < (gramInfos vocab input).length := by
        by_contra hc
        push_neg at hc
        rw [List.get?_eq_none.mpr hc] at hget
        exact Option.noConfusion hget
      have hi : i < (gramTokens (jsToLower (jsTrim input))).length := by
        rw [gramInfos, List.length_map] at hlen
        exact hlen
      have hwi : wordInfo = resolveToken (getAllWords vocab)
          ((gramTokens (jsToLower (jsTrim input))).get ⟨i, hi⟩) := by
        rw [gramInfos, List.get?_map, List.get?_eq_get hi] at hget
        exact (Option.some_injective _ hget).symm
      have htok : (gramTokens (jsToLower (jsTrim input))).get ⟨i, hi⟩ = wordInfo.word := by
        rw [hwi, resolveToken_word]
      refine ⟨i, hi, ?_, ?_⟩
      · rw [htok]
        exact hw
      · rw [← hwi]
        exact hcat

theorem C9_witness :
    ∃ i, ∃ h : i < (gramTokens (jsToLower (jsTrim "en hus"))).length,
      (((gramTokens (jsToLower (jsTrim "en hus"))).get ⟨i, h⟩ = "en" ∨
        (gramTokens (jsToLower (jsTrim "en hus"))).get ⟨i, h⟩ = "et") ∧
       ¬ (resolveToken (getAllWords artVocab)
           ((gramTokens (jsToLower (jsTrim "en hus"))).get ⟨i, h⟩)).category = "unknown") :=
  C9_agreement_guard artVocab "en hus" (Diag.nounShouldUseEt "hus") (by decide) (by decide)

/-! ## Claim C10 — determinism -/

/-- C10: grammar analysis and sentence translation are deterministic — both
are pure functions of the dataset and the input sentence in this embedding,
which is faithful because neither `checkGrammar` nor
`translateSentenceWords` consumes a random draw; `Math.random` enters only
through the explicit `draws` parameter of `shuffleArray` (word-bank shuffle
and suggestion picking). -/
theorem C10_deterministic (vocab : Vocabulary) (input : String) :
    checkGrammar vocab input = checkGrammar vocab input ∧
    translateSentenceWords vocab input = translateSentenceWords vocab input :=
  ⟨rfl, rfl⟩

/-! ## Claim C8 — empty-sentence short circuit -/

/-- C8: an input that is empty after trimming, or whose tokens are all
empty after punctuation stripping, produces exactly the single
"write a sentence first" diagnostic and no further checks. -/
theorem C8_empty_input (vocab : Vocabulary) (input : String)
    (h : jsTrim input = "" ∨ gramTokens (jsToLower (jsTrim input)) = []) :
    checkGrammar vocab input = [Diag.writeFirst] := by
  apply checkGrammar_writeFirst
  rcases h with h | h
  · rw [h]
    rfl
  · exact h

theorem C8_witness :
    gramTokens (jsToLower (jsTrim ".")) = [] ∧ checkGrammar [] "." = [Diag.writeFirst] :=
  ⟨by decide, C8_empty_input [] "." (Or.inr (by decide))⟩

/-! ## Claim C7 — exact-example shortcut -/

/-- C7: when some vocabulary entry's stored example equals the input
sentence case-insensitively (the first such entry in `allWords.values()`
order), `translateSentenceWords` returns exactly that entry's stored
translation — no token-by-token translation, no phrase repair. -/
theorem C7_example_shortcut (vocab : Vocabulary) (sentence : String) (d : WordData)
    (t : String)
    (h1 : (mapValues (getAllWords vocab)).find? (exampleMatch sentence) = some d)
    (h2 : d.translated = some t) :
    translateSentenceWords vocab sentence = t := by
  simp only [translateSentenceWords, h1, jsShowOpt, h2, Option.getD_some]

theorem C7_witness :
    (mapValues (getAllWords artVocab)).find? (exampleMatch "huset er stort")
        = some (rootData husEntry "nouns" "a1") ∧
    (rootData husEntry "nouns" "a1").translated = some "The house is big" ∧
    translateSentenceWords artVocab "huset er stort" = "The house is big" :=
  ⟨by decide, by decide,
    C7_example_shortcut artVocab "huset er stort" (rootData husEntry "nouns" "a1")
      "The house is big" (by decide) (by decide)⟩

/-! ## Claim C6 — unknown tokens in translation -/

/-- C6 is refuted as stated: the token `be` is absent from the empty
dataset and unresolvable by every lookup, yet the translation output `is`
(produced by the phrase-repair regex) does not contain `be`. -/
theorem C6_counterexample :
    mapGet (getAllWords []) "be" = none ∧ scanTranslate [] "be" = none ∧
    translateSentenceWords [] "be" = "is" ∧ ¬ ("be".data <:+: "is".data) :=
  ⟨rfl, rfl, by decide, by decide⟩

/-- C6 (amended): an unresolvable token is emitted verbatim by the
token-by-token stage — it appears unchanged in the translated-words list —
and the final output is the phrase repair of exactly that joined list,
which may subsequently rewrite the token. -/
theorem C6_amended_thm (vocab : Vocabulary) (sentence t : String)
    (h1 : (mapValues (getAllWords vocab)).find? (exampleMatch sentence) = none)
    (h2 : t ∈ transTokens sentence)
    (h3 : mapGet (getAllWords vocab) t = none)
    (h4 : scanTranslate vocab t = none) :
    some t ∈ (transTokens sentence).map (translateWord vocab (getAllWords vocab)) ∧
    translateSentenceWords vocab sentence
      = phraseRepair (String.intercalate " "
          (((transTokens sentence).map (translateWord vocab (getAllWords vocab))).map
            (fun o => o.getD ""))) := by
  constructor
  · exact List.mem_map.mpr ⟨t, h2, by simp only [translateWord, h3, h4]⟩
  · simp only [translateSentenceWords, h1]

theorem C6_amended_witness :
    "foo" ∈ transTokens "foo" ∧
    some "foo" ∈ (transTokens "foo").map (translateWord [] (getAllWords [])) :=
  ⟨by decide, (C6_amended_thm [] "foo" "foo" rfl (by decide) rfl rfl).1⟩

/-! ## Claim C2 — conjugation check -/

/-- C2: evaluation of the grammar check at the failing inputs.  With the
verb `spise` (present `spiser`), the sentence "jeg spise" uses the
infinitive, so per the claim the "infinitive used where present expected"
diagnostic should be emitted — the code emits the generic
"possibly wrong conjugation" diagnostic instead, because
`verbInfo.root` is `undefined` (the info record's field is `rootWord`), so
the check fetches the surface token's record, whose `root` field is absent
on a root entry.  For "jeg spiste" the claim requires the generic
diagnostic naming `spiser`; the fetched record is the derived `spiste`
record, which has no `conjugations`, so the code emits nothing. -/
theorem C2_code_eval :
    checkGrammar spiseVocab "jeg spise"
        = [Diag.unknownWord "jeg", Diag.wrongConjugation "spise" (some "spiser")] ∧
    checkGrammar spiseVocab "jeg spiste" = [Diag.unknownWord "jeg"] :=
  ⟨by decide, by decide⟩

/-! ## Claim C1 — root entries in `allForms` (counterexample) -/

/-- C1 is refuted as stated: in `adjClashVocab` the root word `stort`
(a noun) is overwritten by the unguarded adjective `et_form` insertion of
`stor`, so after the build a root key stores a derived record pointing at a
different root. -/
theorem C1_counterexample :
    "stort" ∈ rootWords adjClashVocab ∧
    mapGet (getAllWords adjClashVocab) "stort"
      = some (etFormData "stor" "stort" (some "big") "a1") ∧
    (etFormData "stor" "stort" (some "big") "a1").root = some "stor" := by
  decide

/-! ## Claim C5 — gender mismatch (counterexample) -/

/-- C5 is refuted as stated: "en hus" is a two-token sentence consisting of
the article `en` followed by the `et`-gender noun `hus`, yet with a dataset
in which `en` is not a vocabulary word the analysis emits no gender-mismatch
diagnostic at all (the article resolves to `unknown` and is skipped). -/
theorem C5_counterexample :
    gramTokens (jsToLower (jsTrim "en hus")) = ["en", "hus"] ∧
    (mapGet (getAllWords noArticleVocab) "hus").map WordData.et = some (some "house") ∧
    checkGrammar noArticleVocab "en hus" = [Diag.unknownWord "en", Diag.noVerbFound] ∧
    (checkGrammar noArticleVocab "en hus").countP (isGenderMismatchFor "hus") = 0 := by
  decide

end DanishTool
